import Mathlib

/-!
Verification of the Monopoly game engine (`game.ts` and the agent roll-state
tracking in `setup/agents.ts`) against its natural-language specification.

The engine state and the Transaction-Resolver command handlers are embedded
shallowly: TypeScript objects become Lean structures, in-place mutation of an
object found in an array becomes `updateFirst` (replace the first matching
element), JS numbers holding currency become `Int`, and per-property building
counters (kept non-negative by the handlers' guards) become `Nat`.  The bank's
house inventory can go negative in the source (`sell_hotel` subtracts 4 houses
without a stock check), so bank inventories are `Int`.
`Math.floor(cost * 0.8)` and `Math.floor(mort * 1.1)` are modelled as the exact
integer computations `4 * cost / 5` and `11 * mort / 10` (for the board's
integer prices the double-precision computation agrees with the exact one).
-/

/-- Tile categories, from the `switch (tile.type)` dispatch in `handleLanding`. -/
inductive TileType where
  | go
  | colored
  | railroad
  | utilities
  | chance
  | communityChest
  | incomeTax
  | luxuryTax
  | goToJail
  | freeParking
  | visitingJail
deriving DecidableEq, Repr

/-- A board tile (`setup/board.ts`), restricted to the attributes the embedded
operations read: `location`, `type`, `attributes.cost`, `attributes.color` and
`attributes.houseCost`. -/
structure Tile where
  location : Nat
  ty : TileType
  name : String
  cost : Option Int
  color : Option String
  houseCost : Option Int
deriving DecidableEq, Repr

/-- Placeholder used to model out-of-range board indexing (`tiles[pos]` with
`pos` ≥ 40 yields `undefined` in JS; the location 1000 matches no property). -/
def dummyTile : Tile :=
  { location := 1000, ty := .go, name := "", cost := none, color := none, houseCost := none }

/-- A property-table entry (`Property` in `setup/agents.ts`). -/
structure Property where
  tile : Tile
  owner : Option String
  houses : Nat
  hotels : Nat
  mortgaged : Bool
deriving DecidableEq, Repr

/-- A player (`Player` in `setup/agents.ts`). -/
structure Player where
  id : String
  name : String
  position : Nat
  money : Int
  properties : List Nat
  jailFreeCards : Nat
  inJail : Bool
  jailTurns : Nat
  bankrupt : Bool
deriving DecidableEq, Repr

/-- Card categories (`setup/cards.ts`). -/
inductive CardType where
  | movement
  | movementPenalty
  | movementJail
  | special
  | financial
  | financialPenalty
deriving DecidableEq, Repr

/-- Card effect descriptor (`attributes` in `setup/cards.ts`). -/
structure CardAttributes where
  amount : Option Int := none
  location : Option Nat := none
  jailFreeCard : Bool := false
  collectFromPlayers : Bool := false
  payToPlayers : Bool := false
  perPlayer : Option Int := none
  moveSpaces : Option Int := none
  perHouse : Option Int := none
  perHotel : Option Int := none
  collectOnPassGo : Bool := false
deriving DecidableEq, Repr

/-- A chance / community-chest card (`setup/cards.ts`). -/
structure Card where
  id : Nat
  ctype : CardType
  name : String
  attributes : CardAttributes
deriving DecidableEq, Repr

/-- The mutable game aggregate (`GameState` in `setup/agents.ts`). -/
structure GameState where
  players : List Player
  currentPlayerIndex : Nat
  properties : List Property
  chanceCards : List Card
  communityChestCards : List Card
  houses : Int
  hotels : Int
  turn : Nat
  gameOver : Bool
  winner : Option String
deriving DecidableEq, Repr

/-- Result record returned by every Transaction-Resolver handler
(`{ success, error?, auctionStarted? }`). -/
structure TRResult where
  success : Bool
  error : Option String := none
  auctionStarted : Bool := false
deriving DecidableEq, Repr

/-- Replace the first element satisfying `pr` by its image under `f`; this is
the shallow embedding of mutating, in place, the object returned by
`Array.prototype.find`. -/
def updateFirst (pr : α → Bool) (f : α → α) : List α → List α
  | [] => []
  | x :: xs => if pr x then f x :: xs else x :: updateFirst pr f xs

/-- Look up a player by id (the handlers receive the current player object; we
re-locate it in the players array by its id). -/
def findPlayer (gs : GameState) (pid : String) : Option Player :=
  gs.players.find? (fun p => p.id == pid)

/-- Minimum of a list of naturals, `none` on the empty list
(`Math.min(...[])` is `Infinity`, which compares unequal to every count). -/
def listMin : List Nat → Option Nat
  | [] => none
  | x :: xs => some (xs.foldl Nat.min x)

/-- Maximum of a list of naturals, `none` on the empty list. -/
def listMax : List Nat → Option Nat
  | [] => none
  | x :: xs => some (xs.foldl Nat.max x)

/-- `getHouseCost` from `game.ts`: `tile.attributes.houseCost ?? 0`. -/
def getHouseCost (t : Tile) : Int :=
  t.houseCost.getD 0

/-- `hasMonopoly` from `game.ts`: the player owns every property whose tile
carries this tile's color (vacuously true for an empty group, as
`Array.prototype.every` is). -/
def hasMonopoly (gs : GameState) (pid : String) (t : Tile) : Bool :=
  match t.color with
  | none => false
  | some c =>
    (gs.properties.filter (fun p => p.tile.color == some c)).all
      (fun p => p.owner == some pid)

/-- `canBuildEvenly` from `game.ts`: within the player's owned part of the
color group, this property's house count equals the group minimum. -/
def canBuildEvenly (gs : GameState) (pid : String) (t : Tile) : Bool :=
  match t.color with
  | none => false
  | some c =>
    let group := gs.properties.filter
      (fun p => p.tile.color == some c && p.owner == some pid)
    match group.find? (fun p => p.tile.location == t.location) with
    | none => false
    | some current =>
      match listMin (group.map (fun p => p.houses)) with
      | none => false
      | some m => current.houses == m

/-- `canSellEvenly` from `game.ts`: this property's house count equals the
group maximum. -/
def canSellEvenly (gs : GameState) (pid : String) (t : Tile) : Bool :=
  match t.color with
  | none => false
  | some c =>
    let group := gs.properties.filter
      (fun p => p.tile.color == some c && p.owner == some pid)
    match group.find? (fun p => p.tile.location == t.location) with
    | none => false
    | some current =>
      match listMax (group.map (fun p => p.houses)) with
      | none => false
      | some m => current.houses == m

/-- `colorGroupHasBuildings` from `game.ts`. -/
def colorGroupHasBuildings (gs : GameState) (pid : String) (t : Tile) : Bool :=
  match t.color with
  | none => false
  | some c =>
    (gs.properties.filter (fun p => p.tile.color == some c && p.owner == some pid)).any
      (fun p => decide (0 < p.houses) || decide (0 < p.hotels))

/-- Failure result with a reason string. -/
def trFail (msg : String) : TRResult :=
  { success := false, error := some msg }

/-- The `for (const p of players)` scan in `startAuction`: carries
`(bestBid, winner)`, starting from `(0, null)`; every candidate's bid cap is
the same `maxBid`, so only the first sufficiently rich candidate is recorded. -/
def auctionFold (maxBid : Int) (candidates : List Player) : Int × Option Player :=
  candidates.foldl
    (fun acc p => if maxBid < p.money ∧ acc.1 < maxBid then (maxBid, some p) else acc)
    (0, none)

/-- `startAuction` from `game.ts`, identified by the tile location of the
auctioned property.  `Math.floor(cost * 0.8)` is modelled as `4 * cost / 5`. -/
def startAuction (gs : GameState) (loc : Nat) : GameState :=
  match gs.properties.find? (fun p => p.tile.location == loc) with
  | none => gs
  | some property =>
    let candidates := gs.players.filter (fun p => !p.bankrupt)
    let maxBid := 4 * property.tile.cost.getD 0 / 5
    match auctionFold maxBid candidates with
    | (bestBid, some w) =>
      if 0 < bestBid then
        { gs with
          players := updateFirst (fun p => p.id == w.id)
            (fun p => { p with
                        money := p.money - bestBid
                        properties := p.properties ++ [loc] }) gs.players,
          properties := updateFirst (fun p => p.tile.location == loc)
            (fun p => { p with owner := some w.id }) gs.properties }
      else gs
    | (_, none) => gs

/-- `handleBuyProperty` from `game.ts`.  The board array is a parameter; the
tile under the player is `tiles[player.position]`. -/
def handleBuyProperty (tiles : List Tile) (gs : GameState) (pid : String)
    (confirm : Bool) : TRResult × GameState :=
  match findPlayer gs pid with
  | none => (trFail "Player not found", gs)
  | some player =>
    let tile := tiles.getD player.position dummyTile
    match gs.properties.find? (fun p => p.tile.location == tile.location) with
    | none => (trFail "Not a purchasable property", gs)
    | some property =>
      if property.owner != none then (trFail "Already owned", gs)
      else
        let cost := property.tile.cost.getD 0
        if !confirm then
          ({ success := true, auctionStarted := true },
            startAuction gs property.tile.location)
        else if player.money < cost then
          (trFail "Insufficient funds", gs)
        else
          ({ success := true },
            { gs with
              players := updateFirst (fun p => p.id == pid)
                (fun p => { p with
                            money := p.money - cost
                            properties := p.properties ++ [tile.location] }) gs.players,
              properties := updateFirst (fun p => p.tile.location == tile.location)
                (fun p => { p with owner := some pid }) gs.properties })

/-- `handleBuildHouse` from `game.ts`. -/
def handleBuildHouse (gs : GameState) (pid : String) (loc : Nat) :
    TRResult × GameState :=
  match findPlayer gs pid with
  | none => (trFail "Player not found", gs)
  | some player =>
    match gs.properties.find? (fun p => p.tile.location == loc) with
    | none => (trFail "Property not found", gs)
    | some property =>
      if property.owner != some pid then (trFail "Not owner", gs)
      else if !hasMonopoly gs pid property.tile then
        (trFail "Need full color group to build", gs)
      else if 0 < property.hotels then (trFail "Has a hotel already", gs)
      else if 4 ≤ property.houses then
        (trFail "Already 4 houses, build hotel instead", gs)
      else if !canBuildEvenly gs pid property.tile then
        (trFail "Must build evenly across color group", gs)
      else if gs.houses ≤ 0 then (trFail "No houses in bank", gs)
      else
        let cost := getHouseCost property.tile
        if player.money < cost then (trFail "Insufficient funds", gs)
        else
          ({ success := true },
            { gs with
              players := updateFirst (fun p => p.id == pid)
                (fun p => { p with money := p.money - cost }) gs.players,
              properties := updateFirst (fun p => p.tile.location == loc)
                (fun p => { p with houses := p.houses + 1 }) gs.properties,
              houses := gs.houses - 1 })

/-- `handleBuildHotel` from `game.ts`: requires exactly 4 houses, converts
them plus one house-cost unit into a hotel, returning 4 houses to the bank. -/
def handleBuildHotel (gs : GameState) (pid : String) (loc : Nat) :
    TRResult × GameState :=
  match findPlayer gs pid with
  | none => (trFail "Player not found", gs)
  | some player =>
    match gs.properties.find? (fun p => p.tile.location == loc) with
    | none => (trFail "Property not found", gs)
    | some property =>
      if property.owner != some pid then (trFail "Not owner", gs)
      else if property.houses != 4 then
        (trFail "Must have exactly 4 houses to build hotel", gs)
      else if gs.hotels ≤ 0 then (trFail "No hotels in bank", gs)
      else
        let cost := getHouseCost property.tile
        if player.money < cost then (trFail "Insufficient funds", gs)
        else
          ({ success := true },
            { gs with
              players := updateFirst (fun p => p.id == pid)
                (fun p => { p with money := p.money - cost }) gs.players,
              properties := updateFirst (fun p => p.tile.location == loc)
                (fun p => { p with houses := 0, hotels := 1 }) gs.properties,
              houses := gs.houses + 4,
              hotels := gs.hotels - 1 })

/-- `handleMortgageProperty` from `game.ts`. -/
def handleMortgageProperty (gs : GameState) (pid : String) (loc : Nat) :
    TRResult × GameState :=
  match findPlayer gs pid with
  | none => (trFail "Player not found", gs)
  | some _player =>
    match gs.properties.find? (fun p => p.tile.location == loc) with
    | none => (trFail "Property not found", gs)
    | some property =>
      if property.owner != some pid then (trFail "Not owner", gs)
      else if property.mortgaged then (trFail "Already mortgaged", gs)
      else if colorGroupHasBuildings gs pid property.tile then
        (trFail "Sell all buildings in color group first", gs)
      else
        let value := property.tile.cost.getD 0 / 2
        ({ success := true },
          { gs with
            players := updateFirst (fun p => p.id == pid)
              (fun p => { p with money := p.money + value }) gs.players,
            properties := updateFirst (fun p => p.tile.location == loc)
              (fun p => { p with mortgaged := true }) gs.properties })

/-- `handleUnmortgageProperty` from `game.ts`; `Math.floor(mort * 1.1)` is
modelled as `11 * mort / 10`. -/
def handleUnmortgageProperty (gs : GameState) (pid : String) (loc : Nat) :
    TRResult × GameState :=
  match findPlayer gs pid with
  | none => (trFail "Player not found", gs)
  | some player =>
    match gs.properties.find? (fun p => p.tile.location == loc) with
    | none => (trFail "Property not found", gs)
    | some property =>
      if property.owner != some pid then (trFail "Not owner", gs)
      else if !property.mortgaged then (trFail "Not mortgaged", gs)
      else
        let mort := property.tile.cost.getD 0 / 2
        let cost := 11 * mort / 10
        if player.money < cost then (trFail "Insufficient funds", gs)
        else
          ({ success := true },
            { gs with
              players := updateFirst (fun p => p.id == pid)
                (fun p => { p with money := p.money - cost }) gs.players,
              properties := updateFirst (fun p => p.tile.location == loc)
                (fun p => { p with mortgaged := false }) gs.properties })

/-- `handleSellHouse` from `game.ts`. -/
def handleSellHouse (gs : GameState) (pid : String) (loc : Nat) :
    TRResult × GameState :=
  match findPlayer gs pid with
  | none => (trFail "Player not found", gs)
  | some _player =>
    match gs.properties.find? (fun p => p.tile.location == loc) with
    | none => (trFail "Property not found", gs)
    | some property =>
      if property.owner != some pid then (trFail "Not owner", gs)
      else if property.houses == 0 then (trFail "No houses to sell", gs)
      else if !canSellEvenly gs pid property.tile then
        (trFail "Must sell evenly across color group", gs)
      else
        let cost := getHouseCost property.tile
        let value := cost / 2
        ({ success := true },
          { gs with
            players := updateFirst (fun p => p.id == pid)
              (fun p => { p with money := p.money + value }) gs.players,
            properties := updateFirst (fun p => p.tile.location == loc)
              (fun p => { p with houses := p.houses - 1 }) gs.properties,
            houses := gs.houses + 1 })

/-- `handleSellHotel` from `game.ts`: credits half of `houseCost * 5`, resets
the property to 4 houses, returns the hotel to the bank and removes 4 houses
from the bank's inventory. -/
def handleSellHotel (gs : GameState) (pid : String) (loc : Nat) :
    TRResult × GameState :=
  match findPlayer gs pid with
  | none => (trFail "Player not found", gs)
  | some _player =>
    match gs.properties.find? (fun p => p.tile.location == loc) with
    | none => (trFail "Property not found", gs)
    | some property =>
      if property.owner != some pid then (trFail "Not owner", gs)
      else if property.hotels == 0 then (trFail "No hotel to sell", gs)
      else
        let houseCost := getHouseCost property.tile
        let hotelCost := houseCost * 5
        let value := hotelCost / 2
        ({ success := true },
          { gs with
            players := updateFirst (fun p => p.id == pid)
              (fun p => { p with money := p.money + value }) gs.players,
            properties := updateFirst (fun p => p.tile.location == loc)
              (fun p => { p with hotels := 0, houses := 4 }) gs.properties,
            hotels := gs.hotels + 1,
            houses := gs.houses - 4 })

/-- `handlePayJailFine` from `game.ts`. -/
def handlePayJailFine (gs : GameState) (pid : String) : TRResult × GameState :=
  match findPlayer gs pid with
  | none => (trFail "Player not found", gs)
  | some player =>
    if !player.inJail then (trFail "Not in jail", gs)
    else if player.money < 50 then (trFail "Need 50", gs)
    else
      ({ success := true },
        { gs with
          players := updateFirst (fun p => p.id == pid)
            (fun p => { p with
                        money := p.money - 50
                        inJail := false
                        jailTurns := 0 }) gs.players })

/-- `handleUseJailCard` from `game.ts`. -/
def handleUseJailCard (gs : GameState) (pid : String) : TRResult × GameState :=
  match findPlayer gs pid with
  | none => (trFail "Player not found", gs)
  | some player =>
    if !player.inJail then (trFail "Not in jail", gs)
    else if player.jailFreeCards == 0 then
      (trFail "No Get Out of Jail Free card", gs)
    else
      ({ success := true },
        { gs with
          players := updateFirst (fun p => p.id == pid)
            (fun p => { p with
                        jailFreeCards := p.jailFreeCards - 1
                        inJail := false
                        jailTurns := 0 }) gs.players })

/-- The nine Transaction-Resolver commands whose handlers may mutate state and
report success or failure (the dispatch cases of `executeToolCall`). -/
inductive TRCommand where
  | buyProperty (confirm : Bool)
  | buildHouse (loc : Nat)
  | buildHotel (loc : Nat)
  | mortgageProperty (loc : Nat)
  | unmortgageProperty (loc : Nat)
  | sellHouse (loc : Nat)
  | sellHotel (loc : Nat)
  | payJailFine
  | useJailCard
deriving DecidableEq, Repr

/-- Dispatch of `executeToolCall` restricted to the nine Transaction-Resolver
commands. -/
def execTR (tiles : List Tile) (gs : GameState) (pid : String) :
    TRCommand → TRResult × GameState
  | .buyProperty confirm => handleBuyProperty tiles gs pid confirm
  | .buildHouse loc => handleBuildHouse gs pid loc
  | .buildHotel loc => handleBuildHotel gs pid loc
  | .mortgageProperty loc => handleMortgageProperty gs pid loc
  | .unmortgageProperty loc => handleUnmortgageProperty gs pid loc
  | .sellHouse loc => handleSellHouse gs pid loc
  | .sellHotel loc => handleSellHotel gs pid loc
  | .payJailFine => handlePayJailFine gs pid
  | .useJailCard => handleUseJailCard gs pid

/-- `handleBankruptcy` from `game.ts`.  With a creditor: all money, owned
properties and jail-free cards move to the creditor (buildings and mortgage
flags travel unchanged).  With the bank as creditor: every owned property is
reset to unowned, unmortgaged and building-free, without touching the bank's
house and hotel inventories.  In both cases the debtor ends with money 0, an
empty property list and 0 jail-free cards. -/
def handleBankruptcy (gs : GameState) (pid : String) (creditor : Option String) :
    GameState :=
  match gs.players.find? (fun p => p.id == pid) with
  | none => gs
  | some debtor =>
    match creditor with
    | some cid =>
      let locs := (gs.properties.filter (fun p => p.owner == some pid)).map
        (fun p => p.tile.location)
      { gs with
        players := gs.players.map (fun p =>
          if p.id == pid then
            { p with
              bankrupt := true
              money := 0
              properties := []
              jailFreeCards := 0 }
          else if p.id == cid then
            { p with
              money := p.money + debtor.money
              properties := p.properties ++ locs
              jailFreeCards := p.jailFreeCards + debtor.jailFreeCards }
          else p)
        properties := gs.properties.map (fun p =>
          if p.owner == some pid then { p with owner := some cid } else p) }
    | none =>
      { gs with
        players := gs.players.map (fun p =>
          if p.id == pid then
            { p with
              bankrupt := true
              money := 0
              properties := []
              jailFreeCards := 0 }
          else p)
        properties := gs.properties.map (fun p =>
          if p.owner == some pid then
            { p with
              hotels := 0
              houses := 0
              owner := none
              mortgaged := false }
          else p) }

/-- A dice roll; `total` and `doubles` are the derived fields of
`MonopolyMultiAgent.rollDice`. -/
structure DiceRoll where
  die1 : Nat
  die2 : Nat
deriving DecidableEq, Repr

/-- `handleJail` from `game.ts`.  The returned flag records whether the
doubles-release path falls through to `handleLanding` (landing resolution is
outside this phase).  The jail-turn counter is incremented on entry; at 3 or
more the player force-pays 50 (or goes bankrupt to the bank) and the function
returns before any roll. -/
def handleJail (gs : GameState) (pid : String) (roll : DiceRoll) :
    GameState × Bool :=
  match gs.players.find? (fun p => p.id == pid) with
  | none => (gs, false)
  | some player =>
    let jt := player.jailTurns + 1
    if 3 ≤ jt then
      if 50 ≤ player.money then
        ({ gs with
           players := updateFirst (fun p => p.id == pid)
             (fun p => { p with
                         money := p.money - 50
                         inJail := false
                         jailTurns := 0 }) gs.players }, false)
      else
        (handleBankruptcy
          { gs with
            players := updateFirst (fun p => p.id == pid)
              (fun p => { p with jailTurns := jt }) gs.players } pid none, false)
    else
      if roll.die1 == roll.die2 then
        ({ gs with
           players := updateFirst (fun p => p.id == pid)
             (fun p => { p with
                         inJail := false
                         jailTurns := 0
                         position := (p.position + roll.die1 + roll.die2) % 40 }) gs.players },
          true)
      else
        ({ gs with
           players := updateFirst (fun p => p.id == pid)
             (fun p => { p with jailTurns := jt }) gs.players }, false)

/-- The early-return guard of `playTurn` after the jail phase: the turn ends
(advancing to the next player) exactly when the player is still in jail or is
bankrupt; otherwise the decision loop runs. -/
def jailTurnEndsEarly (gs : GameState) (pid : String) : Bool :=
  match gs.players.find? (fun p => p.id == pid) with
  | none => false
  | some p => p.inJail || p.bankrupt

/-- The movement-and-Go-bonus step of `handleRollDice` (after the
three-doubles check): position becomes `(old + total) % 40`, and 200 is
credited when `newPos < oldPos || oldPos + total >= 40`. -/
def rollMove (pos : Nat) (money : Int) (total : Nat) : Nat × Int :=
  let newPos := (pos + total) % 40
  if newPos < pos ∨ 40 ≤ pos + total then (newPos, money + 200)
  else (newPos, money)

/-- Per-turn roll-tracking state of `MonopolyAgent` (`setup/agents.ts`). -/
structure AgentRollState where
  hasRolledThisTurn : Bool
  doublesCount : Nat
deriving DecidableEq, Repr

/-- `resetForNewTurn` (the roll-tracking part). -/
def resetForNewTurn : AgentRollState :=
  { hasRolledThisTurn := false, doublesCount := 0 }

/-- `markRollResult` from `setup/agents.ts`. -/
def markRollResult (s : AgentRollState) (doubles : Bool) : AgentRollState :=
  { hasRolledThisTurn := true
    doublesCount := if doubles then s.doublesCount + 1 else s.doublesCount }

/-- `canRollDice` from `setup/agents.ts`:
`!hasRolledThisTurn || (doublesCount > 0 && doublesCount < 3)`. -/
def canRollDice (s : AgentRollState) : Bool :=
  !s.hasRolledThisTurn || (decide (0 < s.doublesCount) && decide (s.doublesCount < 3))

/-- The roll-legality rule as the specification states it: a roll is legal
only if the player has not yet rolled this turn, or the previous roll of this
turn was doubles and fewer than 3 doubles have occurred this turn.  The extra
field records whether the most recent roll was doubles. -/
def specCanRoll (s : AgentRollState) (lastRollWasDoubles : Bool) : Bool :=
  !s.hasRolledThisTurn || (lastRollWasDoubles && decide (s.doublesCount < 3))

/-- The `collectFromPlayers` branch of `executeCardEffect`: every non-bankrupt
player other than the drawer pays `min(money, perPlayer)` to the drawer. -/
def executeCollectFromPlayers (ps : List Player) (drawerId : String)
    (per : Int) : List Player :=
  let total := (ps.filter (fun p => !p.bankrupt && p.id != drawerId)).foldl
    (fun acc p => acc + min p.money per) 0
  ps.map (fun p =>
    if p.id == drawerId then { p with money := p.money + total }
    else if !p.bankrupt then { p with money := p.money - min p.money per }
    else p)

/-- The even-building law exactly as the specification claims it: any two
properties of the same color group held by the same owner have house counts
differing by at most 1. -/
def evenLawLiteral (gs : GameState) : Prop :=
  ∀ p ∈ gs.properties, ∀ q ∈ gs.properties,
    p.owner = q.owner → p.owner ≠ none →
    p.tile.color = q.tile.color → p.tile.color ≠ none →
    p.houses ≤ q.houses + 1

/-- The even-building law restricted to hotel-free properties: any two
hotel-free properties of the same color group held by the same owner have
house counts differing by at most 1. -/
def evenLawHF (gs : GameState) : Prop :=
  ∀ p ∈ gs.properties, ∀ q ∈ gs.properties,
    p.owner = q.owner → p.owner ≠ none →
    p.tile.color = q.tile.color → p.tile.color ≠ none →
    p.hotels = 0 → q.hotels = 0 →
    p.houses ≤ q.houses + 1

instance (gs : GameState) : Decidable (evenLawLiteral gs) := by
  unfold evenLawLiteral
  infer_instance

instance (gs : GameState) : Decidable (evenLawHF gs) := by
  unfold evenLawHF
  infer_instance

/-- A brown color-group tile at board location 1 (price 60, house cost 50). -/
def tileA : Tile :=
  { location := 1, ty := .colored, name := "A", cost := some 60,
    color := some "brown", houseCost := some 50 }

/-- The second brown tile, at board location 3. -/
def tileB : Tile :=
  { location := 3, ty := .colored, name := "B", cost := some 60,
    color := some "brown", houseCost := some 50 }

/-- A generic concrete player used to build test states. -/
def basePlayer : Player :=
  { id := "p1", name := "P1", position := 0, money := 1500, properties := [1, 3],
    jailFreeCards := 0, inJail := false, jailTurns := 0, bankrupt := false }

/-- The empty game state (no players, no properties). -/
def gsEmpty : GameState :=
  { players := [], currentPlayerIndex := 0, properties := [], chanceCards := [],
    communityChestCards := [], houses := 32, hotels := 12, turn := 0,
    gameOver := false, winner := none }

/-- Both brown properties owned by `p1` with 4 houses each. -/
def gsC2 : GameState :=
  { players := [basePlayer], currentPlayerIndex := 0,
    properties :=
      [{ tile := tileA, owner := some "p1", houses := 4, hotels := 0, mortgaged := false },
       { tile := tileB, owner := some "p1", houses := 4, hotels := 0, mortgaged := false }],
    chanceCards := [], communityChestCards := [], houses := 24, hotels := 12,
    turn := 1, gameOver := false, winner := none }

/-- A jailed player on their third jail turn holding 100. -/
def plC5 : Player :=
  { basePlayer with money := 100, inJail := true, jailTurns := 2 }

/-- Game state around `plC5`. -/
def gsC5 : GameState :=
  { players := [plC5], currentPlayerIndex := 0, properties := [], chanceCards := [],
    communityChestCards := [], houses := 32, hotels := 12, turn := 1,
    gameOver := false, winner := none }

/-- A player with no cash who owns a hotel. -/
def plC6 : Player := { basePlayer with money := 0 }

/-- A hotel-carrying brown property owned by `p1`. -/
def propC6 : Property :=
  { tile := tileA, owner := some "p1", houses := 0, hotels := 1, mortgaged := false }

/-- Game state around `plC6` and `propC6`. -/
def gsC6 : GameState :=
  { players := [plC6], currentPlayerIndex := 0, properties := [propC6],
    chanceCards := [], communityChestCards := [], houses := 28, hotels := 11,
    turn := 1, gameOver := false, winner := none }

/-- Debtor: 70 cash, 2 jail cards, one built-up mortgaged property. -/
def plDebtorC7 : Player :=
  { basePlayer with money := 70, jailFreeCards := 2, properties := [1] }

/-- Creditor receiving the debtor's assets. -/
def plCredC7 : Player :=
  { basePlayer with id := "p2", name := "P2", money := 10, properties := [] }

/-- The debtor's property: 2 houses, mortgaged. -/
def propDebtC7 : Property :=
  { tile := tileA, owner := some "p1", houses := 2, hotels := 0, mortgaged := true }

/-- A property of the creditor, untouched by settlement. -/
def propCredC7 : Property :=
  { tile := tileB, owner := some "p2", houses := 0, hotels := 0, mortgaged := false }

/-- Game state for the bankruptcy scenarios. -/
def gsC7 : GameState :=
  { players := [plDebtorC7, plCredC7], currentPlayerIndex := 0,
    properties := [propDebtC7, propCredC7],
    chanceCards := [], communityChestCards := [], houses := 30, hotels := 12,
    turn := 1, gameOver := false, winner := none }

/-- First auction candidate (100 cash, standing on the unowned tile). -/
def plC9a : Player := { basePlayer with money := 100, properties := [] }

/-- Second auction candidate (200 cash). -/
def plC9b : Player :=
  { basePlayer with id := "p2", name := "P2", money := 200, properties := [] }

/-- The unowned brown property up for auction. -/
def propC9 : Property :=
  { tile := tileA, owner := none, houses := 0, hotels := 0, mortgaged := false }

/-- Game state for the auction scenario. -/
def gsC9 : GameState :=
  { players := [plC9a, plC9b], currentPlayerIndex := 0, properties := [propC9],
    chanceCards := [], communityChestCards := [], houses := 32, hotels := 12,
    turn := 1, gameOver := false, winner := none }

/-- Board used with `gsC9`: the player at position 0 stands on `tileA`. -/
def boardC9 : List Tile := [tileA]

/-- Concrete card drawer for the collect-from-players effect. -/
def drawerW : Player :=
  { id := "d", name := "D", position := 0, money := 100, properties := [],
    jailFreeCards := 0, inJail := false, jailTurns := 0, bankrupt := false }

/-- Concrete paying player with only 20 in cash. -/
def payerW : Player :=
  { id := "e", name := "E", position := 0, money := 20, properties := [],
    jailFreeCards := 0, inJail := false, jailTurns := 0, bankrupt := false }

theorem updateFirst_of_find?_eq_none {pr : α → Bool} {f : α → α} {l : List α}
    (h : l.find? pr = none) : updateFirst pr f l = l := by
  induction l with
  | nil => rfl
  | cons x xs ih =>
    rw [List.find?_cons] at h
    by_cases hx : pr x
    · simp [hx] at h
    · simp only [updateFirst, hx, if_false, ite_false]
      rw [if_neg (by simp [hx]), ih (by simpa [hx] using h)]

theorem find?_updateFirst (pr : α → Bool) (f : α → α) (l : List α)
    (hf : ∀ x, pr (f x) = pr x) :
    (updateFirst pr f l).find? pr = (l.find? pr).map f := by
  induction l with
  | nil => rfl
  | cons x xs ih =>
    simp only [updateFirst]
    by_cases hx : pr x
    · simp [hx, List.find?_cons, hf]
    · rw [if_neg hx, List.find?_cons_of_neg _ hx, List.find?_cons_of_neg _ hx, ih]

theorem mem_updateFirst {pr : α → Bool} {f : α → α} {l : List α} {x : α}
    (h : x ∈ updateFirst pr f l) :
    x ∈ l ∨ ∃ a, l.find? pr = some a ∧ x = f a := by
  induction l with
  | nil => simp [updateFirst] at h
  | cons y ys ih =>
    by_cases hy : pr y
    · simp only [updateFirst, if_pos hy] at h
      rcases List.mem_cons.mp h with h1 | h1
      · exact Or.inr ⟨y, by simp [List.find?_cons, hy], h1⟩
      · exact Or.inl (List.mem_cons_of_mem _ h1)
    · simp only [updateFirst, if_neg hy] at h
      rcases List.mem_cons.mp h with h1 | h1
      · exact Or.inl (h1 ▸ List.mem_cons_self _ _)
      · rcases ih h1 with h2 | ⟨a, ha, hx⟩
        · exact Or.inl (List.mem_cons_of_mem _ h2)
        · exact Or.inr ⟨a, by rw [List.find?_cons_of_neg _ hy]; exact ha, hx⟩

theorem mem_updateFirst_of_not_pr {pr : α → Bool} {f : α → α} {l : List α} {x : α}
    (hx : x ∈ l) (hpr : pr x = false) : x ∈ updateFirst pr f l := by
  induction l with
  | nil => simp at hx
  | cons y ys ih =>
    by_cases hy : pr y
    · simp only [updateFirst, if_pos hy]
      rcases List.mem_cons.mp hx with h1 | h1
      · rw [h1] at hpr; rw [hpr] at hy; exact absurd hy (by simp)
      · exact List.mem_cons_of_mem _ h1
    · simp only [updateFirst, if_neg hy]
      rcases List.mem_cons.mp hx with h1 | h1
      · exact h1 ▸ List.mem_cons_self _ _
      · exact List.mem_cons_of_mem _ (ih h1)

theorem find?_filter (l : List α) (f g : α → Bool) :
    (l.filter f).find? g = l.find? (fun a => f a && g a) := by
  induction l with
  | nil => rfl
  | cons x xs ih =>
    by_cases hf : f x
    · by_cases hg : g x
      · simp [List.filter_cons, hf, List.find?_cons, hg]
      · rw [List.filter_cons, if_pos hf, List.find?_cons_of_neg _ (by simp [hg]),
          List.find?_cons_of_neg _ (by simp [hg]), ih]
    · rw [List.filter_cons, if_neg (by simp [hf]),
        List.find?_cons_of_neg _ (by simp [hf]), ih]

theorem find?_stronger {l : List α} {p q : α → Bool} {a : α}
    (h : l.find? p = some a) (hqa : q a = true)
    (himp : ∀ x, q x = true → p x = true) : l.find? q = some a := by
  induction l with
  | nil => simp at h
  | cons x xs ih =>
    by_cases hp : p x
    · rw [List.find?_cons_of_pos _ hp] at h
      injection h with h
      subst h
      rw [List.find?_cons_of_pos _ hqa]
    · have hq : q x = false := by
        by_contra hq
        exact hp (himp x (by simpa using hq))
      rw [List.find?_cons_of_neg _ hp] at h
      rw [List.find?_cons_of_neg _ (by simp [hq])]
      exact ih h

theorem foldl_min_le_init (l : List Nat) (a : Nat) : l.foldl Nat.min a ≤ a := by
  induction l generalizing a with
  | nil => exact Nat.le_refl a
  | cons x xs ih =>
    exact Nat.le_trans (ih (Nat.min a x)) (Nat.min_le_left a x)

theorem foldl_min_le_mem (l : List Nat) :
    ∀ (a : Nat), ∀ x ∈ l, l.foldl Nat.min a ≤ x := by
  induction l with
  | nil => intro a x hx; simp at hx
  | cons y ys ih =>
    intro a x hx
    rcases List.mem_cons.mp hx with h | h
    · subst h
      exact Nat.le_trans (foldl_min_le_init ys (Nat.min a x)) (Nat.min_le_right a x)
    · exact ih (Nat.min a y) x h

theorem listMin_le {l : List Nat} {m : Nat} (h : listMin l = some m) :
    ∀ x ∈ l, m ≤ x := by
  match l with
  | [] => simp [listMin] at h
  | y :: ys =>
    simp only [listMin, Option.some.injEq] at h
    intro x hx
    rcases List.mem_cons.mp hx with h1 | h1
    · exact h ▸ h1 ▸ foldl_min_le_init ys y
    · exact h ▸ foldl_min_le_mem ys y x h1

theorem init_le_foldl_max (l : List Nat) (a : Nat) : a ≤ l.foldl Nat.max a := by
  induction l generalizing a with
  | nil => exact Nat.le_refl a
  | cons x xs ih =>
    exact Nat.le_trans (Nat.le_max_left a x) (ih (Nat.max a x))

theorem mem_le_foldl_max (l : List Nat) :
    ∀ (a : Nat), ∀ x ∈ l, x ≤ l.foldl Nat.max a := by
  induction l with
  | nil => intro a x hx; simp at hx
  | cons y ys ih =>
    intro a x hx
    rcases List.mem_cons.mp hx with h | h
    · subst h
      exact Nat.le_trans (Nat.le_max_right a x) (init_le_foldl_max ys (Nat.max a x))
    · exact ih (Nat.max a y) x h

theorem le_listMax {l : List Nat} {m : Nat} (h : listMax l = some m) :
    ∀ x ∈ l, x ≤ m := by
  match l with
  | [] => simp [listMax] at h
  | y :: ys =>
    simp only [listMax, Option.some.injEq] at h
    intro x hx
    rcases List.mem_cons.mp hx with h1 | h1
    · exact h ▸ h1 ▸ init_le_foldl_max ys y
    · exact h ▸ mem_le_foldl_max ys y x h1

theorem auctionFold_fixed (maxBid : Int) (w : Option Player) (l : List Player) :
    l.foldl
      (fun acc p => if maxBid < p.money ∧ acc.1 < maxBid then (maxBid, some p) else acc)
      (maxBid, w) = (maxBid, w) := by
  induction l with
  | nil => rfl
  | cons x xs ih =>
    rw [List.foldl_cons, if_neg (fun hc => lt_irrefl maxBid hc.2)]
    exact ih

theorem auctionFold_pos {maxBid : Int} (h : 0 < maxBid) (l : List Player) :
    auctionFold maxBid l =
      match l.find? (fun p => decide (maxBid < p.money)) with
      | some w => (maxBid, some w)
      | none => (0, none) := by
  induction l with
  | nil => rfl
  | cons x xs ih =>
    simp only [auctionFold, List.foldl_cons]
    by_cases hx : maxBid < x.money
    · rw [if_pos ⟨hx, h⟩, List.find?_cons_of_pos _ (by simpa using hx)]
      exact auctionFold_fixed maxBid (some x) xs
    · rw [if_neg (fun hc => hx hc.1), List.find?_cons_of_neg _ (by simpa using hx)]
      exact ih

theorem auctionFold_nonpos {maxBid : Int} (h : maxBid ≤ 0) (l : List Player) :
    auctionFold maxBid l = (0, none) := by
  have haux : ∀ l' : List Player, l'.foldl
      (fun acc p => if maxBid < p.money ∧ acc.1 < maxBid then (maxBid, some p) else acc)
      ((0 : Int), (none : Option Player)) = (0, none) := by
    intro l'
    induction l' with
    | nil => rfl
    | cons x xs ih =>
      rw [List.foldl_cons, if_neg (fun hc => lt_irrefl 0 (lt_of_lt_of_le hc.2 h))]
      exact ih
  exact haux l

theorem find?_self_of_nodup_ids {l : List Player} {p : Player}
    (hnd : (l.map Player.id).Nodup) (hp : p ∈ l) :
    l.find? (fun q => q.id == p.id) = some p := by
  induction l with
  | nil => simp at hp
  | cons x xs ih =>
    rw [List.map_cons, List.nodup_cons] at hnd
    rcases List.mem_cons.mp hp with h | h
    · subst h
      rw [List.find?_cons_of_pos _ (by simp)]
    · have hx : (x.id == p.id) = false := by
        by_contra hc
        have : x.id = p.id := by
          simpa using (Bool.not_eq_false _).mp hc
        exact hnd.1 (this ▸ List.mem_map_of_mem Player.id h)
      rw [List.find?_cons_of_neg _ (by simp [hx])]
      exact ih hnd.2 h

theorem foldl_add_eq_sum (g : α → Int) (l : List α) :
    ∀ init : Int, l.foldl (fun acc x => acc + g x) init = init + (l.map g).sum := by
  induction l with
  | nil => intro init; simp
  | cons x xs ih =>
    intro init
    rw [List.foldl_cons, ih, List.map_cons, List.sum_cons]
    ring

/-- C1: whenever one of the nine Transaction-Resolver command handlers
(buy_property, build_house, build_hotel, mortgage_property,
unmortgage_property, sell_house, sell_hotel, pay_jail_fine, use_jail_card)
returns a result with `success = false`, the entire game state — players,
properties, bank inventory, decks and turn data — is unchanged. -/
theorem execTR_failure_preserves_state (tiles : List Tile) (gs : GameState)
    (pid : String) (cmd : TRCommand)
    (h : (execTR tiles gs pid cmd).1.success = false) :
    (execTR tiles gs pid cmd).2 = gs := by
  revert h
  cases cmd <;>
    simp only [execTR, handleBuyProperty, handleBuildHouse, handleBuildHotel,
      handleMortgageProperty, handleUnmortgageProperty, handleSellHouse,
      handleSellHotel, handlePayJailFine, handleUseJailCard] <;>
    (repeat' split) <;>
    (intro h; first | rfl | simp [trFail] at h)

/-- Witness for C1: building on a property that does not exist fails and
leaves the empty state unchanged. -/
theorem execTR_failure_preserves_state_witness :
    (execTR [] gsEmpty "p1" (.buildHouse 1)).2 = gsEmpty :=
  execTR_failure_preserves_state [] gsEmpty "p1" (.buildHouse 1) (by decide)

/-- C3 (code bug): after a doubles roll followed by a non-doubles roll in the
same turn, `canRollDice` still accepts a further roll (its check is
`doublesCount > 0 && doublesCount < 3`, which ignores whether the most recent
roll was doubles), while the rule as specified — and as stated in the
function's own comment — rejects it. -/
theorem canRollDice_accepts_after_doubles_then_nondoubles :
    canRollDice (markRollResult (markRollResult resetForNewTurn true) false) = true ∧
    specCanRoll (markRollResult (markRollResult resetForNewTurn true) false) false
      = false := by
  decide

/-- C4: for an accepted roll that does not hit the three-doubles redirect,
with position below 40 and dice total between 2 and 12, the new position is
`(old + total) % 40`, and 200 is credited exactly when the move wraps past or
onto Go, which happens exactly when `newPos < oldPos`, exactly when
`oldPos + total ≥ 40`. -/
theorem rollMove_position_and_go_bonus (pos total : Nat) (money : Int)
    (hpos : pos < 40) (h2 : 2 ≤ total) (h12 : total ≤ 12) :
    (rollMove pos money total).1 = (pos + total) % 40 ∧
    ((rollMove pos money total).2 = money + 200 ↔ 40 ≤ pos + total) ∧
    ((pos + total) % 40 < pos ↔ 40 ≤ pos + total) ∧
    (pos + total < 40 → (rollMove pos money total).2 = money) := by
  have hiff : ((pos + total) % 40 < pos ↔ 40 ≤ pos + total) := by
    by_cases hlt : pos + total < 40
    · rw [Nat.mod_eq_of_lt hlt]
      omega
    · have h40 : 40 ≤ pos + total := by omega
      rw [Nat.mod_eq_sub_mod h40, Nat.mod_eq_of_lt (by omega)]
      omega
  by_cases hc : 40 ≤ pos + total
  · have hr : rollMove pos money total = ((pos + total) % 40, money + 200) := by
      unfold rollMove
      rw [if_pos (Or.inr hc)]
    rw [hr]
    refine ⟨rfl, ⟨fun _ => hc, fun _ => rfl⟩, hiff, fun hlt => by omega⟩
  · have hr : rollMove pos money total = ((pos + total) % 40, money) := by
      unfold rollMove
      rw [if_neg (fun hor => hc (hor.elim hiff.mp id))]
    rw [hr]
    refine ⟨rfl, ⟨fun hm => by omega, fun h40 => absurd h40 hc⟩, hiff, fun _ => rfl⟩

/-- Witness for C4: rolling a total of 7 from position 35 wraps to 2 and
collects 200. -/
theorem rollMove_position_and_go_bonus_witness :
    (rollMove 35 0 7).1 = (35 + 7) % 40 ∧
    ((rollMove 35 0 7).2 = 0 + 200 ↔ 40 ≤ 35 + 7) ∧
    ((35 + 7) % 40 < 35 ↔ 40 ≤ 35 + 7) ∧
    (35 + 7 < 40 → (rollMove 35 0 7).2 = 0) :=
  rollMove_position_and_go_bonus 35 7 0 (by decide) (by decide) (by decide)

/-- C10: the collect-from-all-players card effect takes exactly
`min(money, perPlayer)` from every non-bankrupt player other than the drawer
(so nobody's money becomes negative and nobody is bankrupted by it), leaves
bankrupt players alone, and credits the drawer with exactly the sum of the
clamped contributions. -/
theorem collectFromPlayers_clamped (ps : List Player) (drawerId : String)
    (per : Int) :
    (executeCollectFromPlayers ps drawerId per).length = ps.length ∧
    (∀ p ∈ ps, p.id ≠ drawerId → p.bankrupt = false →
      ({ p with money := p.money - min p.money per } : Player) ∈
        executeCollectFromPlayers ps drawerId per ∧
      0 ≤ p.money - min p.money per) ∧
    (∀ p ∈ ps, p.id = drawerId →
      ({ p with money := p.money +
          ((ps.filter (fun q => !q.bankrupt && q.id != drawerId)).map
            (fun q => min q.money per)).sum } : Player) ∈
        executeCollectFromPlayers ps drawerId per) ∧
    (∀ p ∈ ps, p.id ≠ drawerId → p.bankrupt = true →
      p ∈ executeCollectFromPlayers ps drawerId per) := by
  refine ⟨by simp [executeCollectFromPlayers], ?_, ?_, ?_⟩
  · intro p hp hne hbr
    refine ⟨List.mem_map.mpr ⟨p, hp, ?_⟩, ?_⟩
    · simp [hbr, hne]
    · have h1 : min p.money per ≤ p.money := min_le_left _ _
      omega
  · intro p hp heq
    refine List.mem_map.mpr ⟨p, hp, ?_⟩
    simp only [executeCollectFromPlayers, heq]
    rw [foldl_add_eq_sum]
    simp
  · intro p hp hne hbr
    refine List.mem_map.mpr ⟨p, hp, ?_⟩
    simp [hbr, hne]

/-- Witness for C10: a payer with 20 cash contributes all 20 against a
per-player amount of 30 and ends exactly at 0. -/
theorem collectFromPlayers_clamped_witness :
    ({ payerW with money := payerW.money - min payerW.money 30 } : Player) ∈
      executeCollectFromPlayers [drawerW, payerW] "d" 30 ∧
    0 ≤ payerW.money - min payerW.money 30 :=
  (collectFromPlayers_clamped [drawerW, payerW] "d" 30).2.1 payerW
    (by decide) (by decide) (by decide)

theorem find?_map_of_pred (g : α → α) (pr : α → Bool) (l : List α)
    (hg : ∀ x, pr (g x) = pr x) : (l.map g).find? pr = (l.find? pr).map g := by
  rw [List.find?_map]
  have hfun : pr ∘ g = pr := funext hg
  rw [hfun]

/-- C5 (corrected): when a jailed player's counter reaches 3 at the start of
their turn, the engine force-collects 50 and releases them when they can pay
(going bankrupt otherwise), and no roll or landing happens in this phase —
but the turn ends early only when the player is still jailed or bankrupt:
after a successful forced payment the released player continues the turn. -/
theorem handleJail_third_turn_behavior (gs : GameState) (pid : String)
    (roll : DiceRoll) (pl : Player)
    (hpl : findPlayer gs pid = some pl)
    (_hjail : pl.inJail = true)
    (hbk : pl.bankrupt = false)
    (hturns : 2 ≤ pl.jailTurns) :
    (50 ≤ pl.money →
      (handleJail gs pid roll).2 = false ∧
      findPlayer (handleJail gs pid roll).1 pid =
        some { pl with money := pl.money - 50, inJail := false, jailTurns := 0 } ∧
      jailTurnEndsEarly (handleJail gs pid roll).1 pid = false) ∧
    (pl.money < 50 →
      (handleJail gs pid roll).2 = false ∧
      (findPlayer (handleJail gs pid roll).1 pid).map Player.bankrupt = some true ∧
      jailTurnEndsEarly (handleJail gs pid roll).1 pid = true) ∧
    (∀ roll2 : DiceRoll, handleJail gs pid roll = handleJail gs pid roll2) := by
  unfold findPlayer at hpl
  have h3 : 3 ≤ pl.jailTurns + 1 := by omega
  refine ⟨?_, ?_, ?_⟩
  · intro hm
    have hr : handleJail gs pid roll =
        ({ gs with
           players := updateFirst (fun p => p.id == pid)
             (fun p => { p with money := p.money - 50, inJail := false, jailTurns := 0 })
             gs.players },
         false) := by
      simp only [handleJail, hpl]
      rw [if_pos h3, if_pos hm]
    rw [hr]
    have hfind : List.find? (fun p : Player => p.id == pid)
        (updateFirst (fun p : Player => p.id == pid)
          (fun p => { p with money := p.money - 50, inJail := false, jailTurns := 0 })
          gs.players) =
        some { pl with money := pl.money - 50, inJail := false, jailTurns := 0 } := by
      rw [find?_updateFirst (fun p : Player => p.id == pid)
        (fun p => { p with money := p.money - 50, inJail := false, jailTurns := 0 })
        gs.players (fun _ => rfl), hpl]
      rfl
    refine ⟨rfl, ?_, ?_⟩
    · unfold findPlayer
      exact hfind
    · unfold jailTurnEndsEarly
      rw [hfind]
      simp [hbk]
  · intro hm
    have hmid : List.find? (fun p : Player => p.id == pid)
        (updateFirst (fun p : Player => p.id == pid)
          (fun p => { p with jailTurns := pl.jailTurns + 1 }) gs.players) =
        some { pl with jailTurns := pl.jailTurns + 1 } := by
      rw [find?_updateFirst (fun p : Player => p.id == pid)
        (fun p => { p with jailTurns := pl.jailTurns + 1 }) gs.players (fun _ => rfl), hpl]
      rfl
    have hr : handleJail gs pid roll =
        (handleBankruptcy
          { gs with
            players := updateFirst (fun p => p.id == pid)
              (fun p => { p with jailTurns := pl.jailTurns + 1 }) gs.players }
          pid none,
         false) := by
      simp only [handleJail, hpl]
      rw [if_pos h3, if_neg (by omega)]
    rw [hr]
    have hgpr : ∀ x : Player,
        ((fun p : Player => p.id == pid)
          (if x.id == pid then
            ({ x with bankrupt := true, money := 0, properties := [], jailFreeCards := 0 } : Player)
           else x)) =
        ((fun p : Player => p.id == pid) x) := by
      intro x
      by_cases hx : x.id == pid
      · simp [hx]
      · simp [hx]
    have hfind2 : findPlayer
        (handleBankruptcy
          { gs with
            players := updateFirst (fun p => p.id == pid)
              (fun p => { p with jailTurns := pl.jailTurns + 1 }) gs.players }
          pid none) pid =
        some { pl with
               jailTurns := pl.jailTurns + 1
               bankrupt := true
               money := 0
               properties := []
               jailFreeCards := 0 } := by
      have hid : (pl.id == pid) = true := by
        have hs := List.find?_some hpl
        simpa using hs
      unfold findPlayer handleBankruptcy
      rw [hmid]
      rw [find?_map_of_pred _ _ _ hgpr, hmid]
      simp
      intro hne
      exact absurd (by simpa using hid) hne
    refine ⟨rfl, ?_, ?_⟩
    · rw [hfind2]
      rfl
    · unfold jailTurnEndsEarly
      unfold findPlayer at hfind2
      rw [hfind2]
      simp
  · intro roll2
    simp only [handleJail, hpl]
    rw [if_pos h3, if_pos h3]

/-- Witness for C5: the concrete jailed player pays 50, is released, and the
turn-continuation guard shows the turn does not end early. -/
theorem handleJail_third_turn_behavior_witness :
    (handleJail gsC5 "p1" ⟨3, 4⟩).2 = false ∧
    findPlayer (handleJail gsC5 "p1" ⟨3, 4⟩).1 "p1" =
      some { plC5 with money := plC5.money - 50, inJail := false, jailTurns := 0 } ∧
    jailTurnEndsEarly (handleJail gsC5 "p1" ⟨3, 4⟩).1 "p1" = false :=
  (handleJail_third_turn_behavior gsC5 "p1" ⟨3, 4⟩ plC5
    (by decide) (by decide) (by decide) (by decide)).1 (by decide)

/-- Counterexample for C5 as stated: the in-jail player whose counter reaches
3 holds 100, is force-charged 50 and released — and then the engine does not
end the turn early (the early-return guard of the turn loop is false), so the
released player proceeds to the decision loop, contrary to the claim that the
turn ends without any further action. -/
theorem jail_forcepay_turn_continues_cex :
    (findPlayer (handleJail gsC5 "p1" ⟨1, 2⟩).1 "p1").map Player.inJail = some false ∧
    (findPlayer (handleJail gsC5 "p1" ⟨1, 2⟩).1 "p1").map Player.money = some 50 ∧
    jailTurnEndsEarly (handleJail gsC5 "p1" ⟨1, 2⟩).1 "p1" = false := by
  decide

/-- C6 (corrected): selling a hotel the acting player owns succeeds, resets
the property to 0 hotels and 4 houses, returns the hotel to the bank and
removes 4 houses from the bank's inventory — but it credits
`floor(houseCost * 5 / 2)` (half of a five-house-unit hotel value), not half
of the amount that build_hotel charged, which is a single house-cost unit. -/
theorem handleSellHotel_mirror (gs : GameState) (pid : String) (loc : Nat)
    (pl : Player) (property : Property)
    (hpl : findPlayer gs pid = some pl)
    (hprop : gs.properties.find? (fun p => p.tile.location == loc) = some property)
    (howner : property.owner = some pid)
    (hhotel : property.hotels ≠ 0) :
    (handleSellHotel gs pid loc).1.success = true ∧
    findPlayer (handleSellHotel gs pid loc).2 pid =
      some { pl with money := pl.money + getHouseCost property.tile * 5 / 2 } ∧
    (handleSellHotel gs pid loc).2.properties.find? (fun p => p.tile.location == loc) =
      some { property with hotels := 0, houses := 4 } ∧
    (handleSellHotel gs pid loc).2.hotels = gs.hotels + 1 ∧
    (handleSellHotel gs pid loc).2.houses = gs.houses - 4 := by
  have hplF : List.find? (fun p : Player => p.id == pid) gs.players = some pl := hpl
  have h1 : (property.owner != some pid) = false := by simp [howner]
  have h2 : (property.hotels == 0) = false := by simpa using hhotel
  have hr : handleSellHotel gs pid loc =
      ({ success := true },
       { gs with
         players := updateFirst (fun p => p.id == pid)
           (fun p => { p with money := p.money + getHouseCost property.tile * 5 / 2 })
           gs.players
         properties := updateFirst (fun p => p.tile.location == loc)
           (fun p => { p with hotels := 0, houses := 4 }) gs.properties
         hotels := gs.hotels + 1
         houses := gs.houses - 4 }) := by
    simp [handleSellHotel, hpl, hprop, h1, h2]
  rw [hr]
  refine ⟨rfl, ?_, ?_, rfl, rfl⟩
  · unfold findPlayer
    rw [find?_updateFirst (fun p : Player => p.id == pid)
      (fun p => { p with money := p.money + getHouseCost property.tile * 5 / 2 })
      gs.players (fun _ => rfl), hplF]
    rfl
  · rw [find?_updateFirst (fun p : Property => p.tile.location == loc)
      (fun p => { p with hotels := 0, houses := 4 }) gs.properties (fun _ => rfl), hprop]
    rfl

/-- Witness for C6 (amended): the concrete hotel sale credits 125, resets the
property to 4 houses and adjusts the bank's inventories. -/
theorem handleSellHotel_mirror_witness :
    (handleSellHotel gsC6 "p1" 1).1.success = true ∧
    findPlayer (handleSellHotel gsC6 "p1" 1).2 "p1" =
      some { plC6 with money := plC6.money + getHouseCost propC6.tile * 5 / 2 } ∧
    (handleSellHotel gsC6 "p1" 1).2.properties.find? (fun p => p.tile.location == 1) =
      some { propC6 with hotels := 0, houses := 4 } ∧
    (handleSellHotel gsC6 "p1" 1).2.hotels = gsC6.hotels + 1 ∧
    (handleSellHotel gsC6 "p1" 1).2.houses = gsC6.houses - 4 :=
  handleSellHotel_mirror gsC6 "p1" 1 plC6 propC6
    (by decide) (by decide) (by decide) (by decide)

/-- Counterexample for C6 as stated: on a tile with house cost 50,
build_hotel charges 50 (1500 becomes 1450 on `gsC2`), so half of the build
charge is 25 — yet selling the hotel credits 125 (the penniless owner in
`gsC6` ends with 125, not 25). -/
theorem sellHotel_credit_half_cex :
    (handleSellHotel gsC6 "p1" 1).1.success = true ∧
    (findPlayer (handleSellHotel gsC6 "p1" 1).2 "p1").map Player.money = some 125 ∧
    (findPlayer (handleBuildHotel gsC2 "p1" 1).2 "p1").map Player.money = some 1450 ∧
    ((125 : Int) ≠ 50 / 2) := by
  decide

/-- C7: bankruptcy settlement with a named creditor marks the debtor
terminally bankrupt, moves all of the debtor's money, every property the
debtor owned, and all of the debtor's jail-free cards to the creditor, and
leaves the debtor with money 0, an empty property list and 0 jail cards. -/
theorem bankruptcy_creditor_settlement (gs : GameState) (pid cid : String)
    (debtor cred : Player)
    (hdeb : findPlayer gs pid = some debtor)
    (hcred : findPlayer gs cid = some cred)
    (hne : pid ≠ cid) :
    findPlayer (handleBankruptcy gs pid (some cid)) pid =
      some { debtor with
             bankrupt := true
             money := 0
             properties := []
             jailFreeCards := 0 } ∧
    findPlayer (handleBankruptcy gs pid (some cid)) cid =
      some { cred with
             money := cred.money + debtor.money
             properties := cred.properties ++
               ((gs.properties.filter (fun p => p.owner == some pid)).map
                 (fun p => p.tile.location))
             jailFreeCards := cred.jailFreeCards + debtor.jailFreeCards } ∧
    (∀ p ∈ gs.properties, p.owner = some pid →
      ({ p with owner := some cid } : Property) ∈
        (handleBankruptcy gs pid (some cid)).properties) ∧
    (∀ p ∈ gs.properties, p.owner ≠ some pid →
      p ∈ (handleBankruptcy gs pid (some cid)).properties) := by
  unfold findPlayer at hdeb hcred
  have hdid : debtor.id = pid := by
    have hs := List.find?_some hdeb
    simpa using hs
  have hcid : cred.id = cid := by
    have hs := List.find?_some hcred
    simpa using hs
  have hr : handleBankruptcy gs pid (some cid) =
      { gs with
        players := gs.players.map (fun p =>
          if p.id == pid then
            { p with bankrupt := true, money := 0, properties := [], jailFreeCards := 0 }
          else if p.id == cid then
            { p with
              money := p.money + debtor.money
              properties := p.properties ++
                ((gs.properties.filter (fun p => p.owner == some pid)).map
                  (fun p => p.tile.location))
              jailFreeCards := p.jailFreeCards + debtor.jailFreeCards }
          else p)
        properties := gs.properties.map (fun p =>
          if p.owner == some pid then { p with owner := some cid } else p) } := by
    simp only [handleBankruptcy, hdeb]
  have hg : ∀ q : String, ∀ x : Player,
      ((fun p : Player => p.id == q)
        (if x.id == pid then
          ({ x with bankrupt := true, money := 0, properties := [], jailFreeCards := 0 } : Player)
         else if x.id == cid then
          ({ x with
             money := x.money + debtor.money
             properties := x.properties ++
               ((gs.properties.filter (fun p => p.owner == some pid)).map
                 (fun p => p.tile.location))
             jailFreeCards := x.jailFreeCards + debtor.jailFreeCards } : Player)
         else x)) =
      ((fun p : Player => p.id == q) x) := by
    intro q x
    by_cases h1 : x.id == pid
    · simp [h1]
    · by_cases h2 : x.id == cid
      · simp [h1, h2]
      · simp [h1, h2]
  rw [hr]
  refine ⟨?_, ?_, ?_, ?_⟩
  · unfold findPlayer
    rw [find?_map_of_pred _ _ _ (hg pid), hdeb]
    simp [hdid]
  · unfold findPlayer
    rw [find?_map_of_pred _ _ _ (hg cid), hcred]
    have hcp : (cred.id == pid) = false := by
      simp [hcid]
      exact fun h => hne h.symm
    simp [hcp, hcid]
    intro h
    exact absurd h.symm hne
  · intro p hp hpo
    refine List.mem_map.mpr ⟨p, hp, ?_⟩
    simp [hpo]
  · intro p hp hpo
    refine List.mem_map.mpr ⟨p, hp, ?_⟩
    simp [hpo]

/-- Witness for C7: the concrete creditor ends with the debtor's 70 cash, the
debtor's property location and the 2 jail cards; the debtor is zeroed out. -/
theorem bankruptcy_creditor_settlement_witness :
    findPlayer (handleBankruptcy gsC7 "p1" (some "p2")) "p1" =
      some { plDebtorC7 with
             bankrupt := true
             money := 0
             properties := []
             jailFreeCards := 0 } ∧
    findPlayer (handleBankruptcy gsC7 "p1" (some "p2")) "p2" =
      some { plCredC7 with
             money := plCredC7.money + plDebtorC7.money
             properties := plCredC7.properties ++
               ((gsC7.properties.filter (fun p => p.owner == some "p1")).map
                 (fun p => p.tile.location))
             jailFreeCards := plCredC7.jailFreeCards + plDebtorC7.jailFreeCards } ∧
    (∀ p ∈ gsC7.properties, p.owner = some "p1" →
      ({ p with owner := some "p2" } : Property) ∈
        (handleBankruptcy gsC7 "p1" (some "p2")).properties) ∧
    (∀ p ∈ gsC7.properties, p.owner ≠ some "p1" →
      p ∈ (handleBankruptcy gsC7 "p1" (some "p2")).properties) :=
  bankruptcy_creditor_settlement gsC7 "p1" "p2" plDebtorC7 plCredC7
    (by decide) (by decide) (by decide)

/-- C8: bankruptcy settlement with the bank as creditor resets every property
the debtor owned to unowned, unmortgaged and building-free, leaves every
other property and every other player untouched, and does not change the
bank's house and hotel inventories (the cleared building units are not
restored), nor the decks or the turn counter. -/
theorem bankruptcy_bank_settlement (gs : GameState) (pid : String)
    (debtor : Player)
    (hdeb : findPlayer gs pid = some debtor) :
    (∀ p ∈ gs.properties, p.owner = some pid →
      ({ p with owner := none, mortgaged := false, houses := 0, hotels := 0 } : Property)
        ∈ (handleBankruptcy gs pid none).properties) ∧
    (∀ p ∈ gs.properties, p.owner ≠ some pid →
      p ∈ (handleBankruptcy gs pid none).properties) ∧
    (handleBankruptcy gs pid none).houses = gs.houses ∧
    (handleBankruptcy gs pid none).hotels = gs.hotels ∧
    (∀ q ∈ gs.players, q.id ≠ pid → q ∈ (handleBankruptcy gs pid none).players) ∧
    (handleBankruptcy gs pid none).chanceCards = gs.chanceCards ∧
    (handleBankruptcy gs pid none).communityChestCards = gs.communityChestCards ∧
    (handleBankruptcy gs pid none).turn = gs.turn := by
  unfold findPlayer at hdeb
  have hr : handleBankruptcy gs pid none =
      { gs with
        players := gs.players.map (fun p =>
          if p.id == pid then
            { p with bankrupt := true, money := 0, properties := [], jailFreeCards := 0 }
          else p)
        properties := gs.properties.map (fun p =>
          if p.owner == some pid then
            { p with hotels := 0, houses := 0, owner := none, mortgaged := false }
          else p) } := by
    simp only [handleBankruptcy, hdeb]
  rw [hr]
  refine ⟨?_, ?_, rfl, rfl, ?_, rfl, rfl, rfl⟩
  · intro p hp hpo
    refine List.mem_map.mpr ⟨p, hp, ?_⟩
    simp [hpo]
  · intro p hp hpo
    refine List.mem_map.mpr ⟨p, hp, ?_⟩
    simp [hpo]
  · intro q hq hqo
    refine List.mem_map.mpr ⟨q, hq, ?_⟩
    simp [hqo]

/-- Witness for C8: the concrete debtor's mortgaged, built-up property comes
back to the bank cleared, while the bank's inventories stay at 30 houses and
12 hotels. -/
theorem bankruptcy_bank_settlement_witness :
    ({ propDebtC7 with owner := none, mortgaged := false, houses := 0, hotels := 0 } :
        Property) ∈ (handleBankruptcy gsC7 "p1" none).properties ∧
    (handleBankruptcy gsC7 "p1" none).houses = gsC7.houses ∧
    (handleBankruptcy gsC7 "p1" none).hotels = gsC7.hotels :=
  ⟨(bankruptcy_bank_settlement gsC7 "p1" plDebtorC7 (by decide)).1 propDebtC7
      (by decide) (by decide),
   (bankruptcy_bank_settlement gsC7 "p1" plDebtorC7 (by decide)).2.2.1,
   (bankruptcy_bank_settlement gsC7 "p1" plDebtorC7 (by decide)).2.2.2.1⟩

/-- C9: buy_property with confirm = false on an unowned ownable tile starts an
auction rather than a no-op.  In the auction every non-bankrupt player is a
candidate with the same maximum willingness, floor(0.8 × list price); the
first candidate whose cash strictly exceeds that willingness (a maximally
willing candidate, since all willingness values coincide) wins, immediately
pays exactly the willingness, and becomes the owner; with no willing
candidate (or a zero willingness) the state — and hence the property's
ownership — is unchanged. -/
theorem buy_decline_runs_auction (tiles : List Tile) (gs : GameState)
    (pid : String) (pl : Player) (tile : Tile) (property : Property)
    (hpl : findPlayer gs pid = some pl)
    (htile : tiles.getD pl.position dummyTile = tile)
    (hprop : gs.properties.find? (fun p => p.tile.location == tile.location) =
      some property)
    (hunowned : property.owner = none)
    (hnd : (gs.players.map Player.id).Nodup) :
    handleBuyProperty tiles gs pid false =
      ({ success := true, auctionStarted := true },
        startAuction gs property.tile.location) ∧
    (∀ w : Player,
      (gs.players.filter (fun p => !p.bankrupt)).find?
        (fun p => decide (4 * property.tile.cost.getD 0 / 5 < p.money)) = some w →
      0 < 4 * property.tile.cost.getD 0 / 5 →
      findPlayer (startAuction gs property.tile.location) w.id =
        some { w with
               money := w.money - 4 * property.tile.cost.getD 0 / 5
               properties := w.properties ++ [property.tile.location] } ∧
      (startAuction gs property.tile.location).properties.find?
          (fun p => p.tile.location == property.tile.location) =
        some { property with owner := some w.id } ∧
      w.bankrupt = false ∧ 4 * property.tile.cost.getD 0 / 5 < w.money) ∧
    ((gs.players.filter (fun p => !p.bankrupt)).find?
        (fun p => decide (4 * property.tile.cost.getD 0 / 5 < p.money)) = none ∨
      4 * property.tile.cost.getD 0 / 5 ≤ 0 →
      startAuction gs property.tile.location = gs) := by
  have hlocEq : property.tile.location = tile.location := by
    have hs := List.find?_some hprop
    simpa using hs
  have hfindA : gs.properties.find?
      (fun p => p.tile.location == property.tile.location) = some property := by
    rw [hlocEq]
    exact hprop
  have hno : (property.owner != none) = false := by simp [hunowned]
  have htile2 : (tiles[pl.position]?).getD dummyTile = tile := by simpa using htile
  refine ⟨?_, ?_, ?_⟩
  · simp [handleBuyProperty, hpl, htile, htile2, hprop, hno, hunowned]
  · intro w hw hpos
    have hwmem : w ∈ gs.players.filter (fun p => !p.bankrupt) :=
      List.mem_of_find?_eq_some hw
    have hwpl : w ∈ gs.players := (List.mem_filter.mp hwmem).1
    have hwbk : w.bankrupt = false := by
      have hb := (List.mem_filter.mp hwmem).2
      simpa using hb
    have hwfind : gs.players.find? (fun p => p.id == w.id) = some w :=
      find?_self_of_nodup_ids hnd hwpl
    have hwill : 4 * property.tile.cost.getD 0 / 5 < w.money := by
      have hd := List.find?_some hw
      simpa using hd
    have hstart : startAuction gs property.tile.location =
        { gs with
          players := updateFirst (fun p => p.id == w.id)
            (fun p => { p with
                        money := p.money - 4 * property.tile.cost.getD 0 / 5
                        properties := p.properties ++ [property.tile.location] })
            gs.players
          properties := updateFirst
            (fun p => p.tile.location == property.tile.location)
            (fun p => { p with owner := some w.id }) gs.properties } := by
      simp only [startAuction, hfindA, auctionFold_pos hpos, hw]
      rw [if_pos hpos]
    rw [hstart]
    refine ⟨?_, ?_, hwbk, hwill⟩
    · unfold findPlayer
      rw [find?_updateFirst (fun p : Player => p.id == w.id)
        (fun p => { p with
                    money := p.money - 4 * property.tile.cost.getD 0 / 5
                    properties := p.properties ++ [property.tile.location] })
        gs.players (fun _ => rfl), hwfind]
      rfl
    · rw [find?_updateFirst (fun p : Property => p.tile.location == property.tile.location)
        (fun p => { p with owner := some w.id }) gs.properties (fun _ => rfl), hfindA]
      rfl
  · intro hcase
    rcases hcase with hnone | hle
    · by_cases h0 : 0 < 4 * property.tile.cost.getD 0 / 5
      · simp only [startAuction, hfindA, auctionFold_pos h0, hnone]
      · have hle0 : 4 * property.tile.cost.getD 0 / 5 ≤ 0 := by omega
        simp only [startAuction, hfindA, auctionFold_nonpos hle0]
    · simp only [startAuction, hfindA, auctionFold_nonpos hle]

/-- Witness for C9: at the concrete auction the first player (100 cash) wins,
pays 48 = floor(0.8 × 60), and becomes the owner. -/
theorem buy_decline_runs_auction_witness :
    findPlayer (startAuction gsC9 propC9.tile.location) plC9a.id =
      some { plC9a with
             money := plC9a.money - 4 * propC9.tile.cost.getD 0 / 5
             properties := plC9a.properties ++ [propC9.tile.location] } ∧
    (startAuction gsC9 propC9.tile.location).properties.find?
        (fun p => p.tile.location == propC9.tile.location) =
      some { propC9 with owner := some plC9a.id } ∧
    plC9a.bankrupt = false ∧ 4 * propC9.tile.cost.getD 0 / 5 < plC9a.money :=
  (buy_decline_runs_auction boardC9 gsC9 "p1" plC9a tileA propC9
    (by decide) (by decide) (by decide) (by decide) (by decide)).2.1 plC9a
    (by decide) (by decide)
theorem handleBuildHouse_shape (gs : GameState) (pid : String) (loc : Nat) :
    (handleBuildHouse gs pid loc).2 = gs ∨
    ∃ property,
      gs.properties.find? (fun p => p.tile.location == loc) = some property ∧
      property.owner = some pid ∧
      property.hotels = 0 ∧
      property.houses < 4 ∧
      canBuildEvenly gs pid property.tile = true ∧
      (handleBuildHouse gs pid loc).2 =
        { gs with
          players := updateFirst (fun p => p.id == pid)
            (fun p => { p with money := p.money - getHouseCost property.tile })
            gs.players
          properties := updateFirst (fun p => p.tile.location == loc)
            (fun p => { p with houses := p.houses + 1 }) gs.properties
          houses := gs.houses - 1 } := by
  simp only [handleBuildHouse]
  split
  · exact Or.inl rfl
  · rename_i player hpl
    split
    · exact Or.inl rfl
    · rename_i property hprop
      split
      · exact Or.inl rfl
      · rename_i hown
        split
        · exact Or.inl rfl
        · rename_i hmono
          split
          · exact Or.inl rfl
          · rename_i hhot
            split
            · exact Or.inl rfl
            · rename_i hh4
              split
              · exact Or.inl rfl
              · rename_i heven
                split
                · exact Or.inl rfl
                · rename_i hbank
                  split
                  · exact Or.inl rfl
                  · rename_i hmoney
                    refine Or.inr ⟨property, hprop, ?_, ?_, ?_, ?_, rfl⟩
                    · simpa using hown
                    · omega
                    · omega
                    · simpa using heven

theorem evenHF_buildHouse (gs : GameState) (pid : String) (loc : Nat)
    (h : evenLawHF gs) : evenLawHF (handleBuildHouse gs pid loc).2 := by
  rcases handleBuildHouse_shape gs pid loc with heq | hsucc
  · rw [heq]
    exact h
  · obtain ⟨property, hprop, hown, hhot, _hh4, heven, heq⟩ := hsucc
    rw [heq]
    have hlocp : property.tile.location = loc := by
      have hs := List.find?_some hprop
      simpa using hs
    have hpmem : property ∈ gs.properties := List.mem_of_find?_eq_some hprop
    rcases hc : property.tile.color with _ | c
    · simp only [canBuildEvenly, hc] at heven
      exact Bool.noConfusion heven
    · simp only [canBuildEvenly, hc] at heven
      split at heven
      · exact Bool.noConfusion heven
      · rename_i current hcur
        split at heven
        · exact Bool.noConfusion heven
        · rename_i m hmin
          have hgrp : (gs.properties.filter
              (fun p => p.tile.color == some c && p.owner == some pid)).find?
              (fun p => p.tile.location == property.tile.location) = some property := by
            rw [find?_filter]
            refine find?_stronger hprop (by simp [hc, hown]) ?_
            intro x hx
            simp only [Bool.and_eq_true, beq_iff_eq] at hx
            simp [hx.2, hlocp]
          have hcp : current = property := Option.some.inj (hcur.symm.trans hgrp)
          rw [hcp] at heven
          have hcurm : property.houses = m := by simpa using heven
          have hmlb : ∀ y ∈ gs.properties.filter
              (fun p => p.tile.color == some c && p.owner == some pid),
              m ≤ y.houses := by
            intro y hy
            exact listMin_le hmin y.houses (List.mem_map_of_mem _ hy)
          intro p' hp' q' hq' h1 h2 h3 h4 h5 h6
          rcases mem_updateFirst hp' with hpo | ⟨a, ha, hpa⟩
          · rcases mem_updateFirst hq' with hqo | ⟨b, hb, hqb⟩
            · exact h p' hpo q' hqo h1 h2 h3 h4 h5 h6
            · have hbp : b = property := Option.some.inj (hb.symm.trans hprop)
              rw [hbp] at hqb
              subst hqb
              have hle : p'.houses ≤ property.houses + 1 :=
                h p' hpo property hpmem h1 h2 h3 h4 h5 hhot
              show p'.houses ≤ property.houses + 1 + 1
              omega
          · have hap : a = property := Option.some.inj (ha.symm.trans hprop)
            rw [hap] at hpa
            subst hpa
            rcases mem_updateFirst hq' with hqo | ⟨b, hb, hqb⟩
            · have hq'own : q'.owner = some pid := by
                rw [← h1]
                exact hown
              have hq'col : q'.tile.color = some c := by
                rw [← h3]
                exact hc
              have hq'grp : q' ∈ gs.properties.filter
                  (fun p => p.tile.color == some c && p.owner == some pid) :=
                List.mem_filter.mpr ⟨hqo, by simp [hq'own, hq'col]⟩
              have hqlb : m ≤ q'.houses := hmlb q' hq'grp
              show property.houses + 1 ≤ q'.houses + 1
              omega
            · have hbp : b = property := Option.some.inj (hb.symm.trans hprop)
              rw [hbp] at hqb
              subst hqb
              show property.houses + 1 ≤ property.houses + 1 + 1
              omega

theorem handleSellHouse_shape (gs : GameState) (pid : String) (loc : Nat) :
    (handleSellHouse gs pid loc).2 = gs ∨
    ∃ property,
      gs.properties.find? (fun p => p.tile.location == loc) = some property ∧
      property.owner = some pid ∧
      property.houses ≠ 0 ∧
      canSellEvenly gs pid property.tile = true ∧
      (handleSellHouse gs pid loc).2 =
        { gs with
          players := updateFirst (fun p => p.id == pid)
            (fun p => { p with money := p.money + getHouseCost property.tile / 2 })
            gs.players
          properties := updateFirst (fun p => p.tile.location == loc)
            (fun p => { p with houses := p.houses - 1 }) gs.properties
          houses := gs.houses + 1 } := by
  simp only [handleSellHouse]
  split
  · exact Or.inl rfl
  · rename_i player hpl
    split
    · exact Or.inl rfl
    · rename_i property hprop
      split
      · exact Or.inl rfl
      · rename_i hown
        split
        · exact Or.inl rfl
        · rename_i hzero
          split
          · exact Or.inl rfl
          · rename_i heven
            refine Or.inr ⟨property, hprop, ?_, ?_, ?_, rfl⟩
            · simpa using hown
            · simpa using hzero
            · simpa using heven

theorem evenHF_sellHouse (gs : GameState) (pid : String) (loc : Nat)
    (h : evenLawHF gs) : evenLawHF (handleSellHouse gs pid loc).2 := by
  rcases handleSellHouse_shape gs pid loc with heq | hsucc
  · rw [heq]
    exact h
  · obtain ⟨property, hprop, hown, hne0, heven, heq⟩ := hsucc
    rw [heq]
    have hlocp : property.tile.location = loc := by
      have hs := List.find?_some hprop
      simpa using hs
    have hpmem : property ∈ gs.properties := List.mem_of_find?_eq_some hprop
    rcases hc : property.tile.color with _ | c
    · simp only [canSellEvenly, hc] at heven
      exact Bool.noConfusion heven
    · simp only [canSellEvenly, hc] at heven
      split at heven
      · exact Bool.noConfusion heven
      · rename_i current hcur
        split at heven
        · exact Bool.noConfusion heven
        · rename_i m hmax
          have hgrp : (gs.properties.filter
              (fun p => p.tile.color == some c && p.owner == some pid)).find?
              (fun p => p.tile.location == property.tile.location) = some property := by
            rw [find?_filter]
            refine find?_stronger hprop (by simp [hc, hown]) ?_
            intro x hx
            simp only [Bool.and_eq_true, beq_iff_eq] at hx
            simp [hx.2, hlocp]
          have hcp : current = property := Option.some.inj (hcur.symm.trans hgrp)
          rw [hcp] at heven
          have hcurm : property.houses = m := by simpa using heven
          have hmub : ∀ y ∈ gs.properties.filter
              (fun p => p.tile.color == some c && p.owner == some pid),
              y.houses ≤ m := by
            intro y hy
            exact le_listMax hmax y.houses (List.mem_map_of_mem _ hy)
          intro p' hp' q' hq' h1 h2 h3 h4 h5 h6
          rcases mem_updateFirst hp' with hpo | ⟨a, ha, hpa⟩
          · rcases mem_updateFirst hq' with hqo | ⟨b, hb, hqb⟩
            · exact h p' hpo q' hqo h1 h2 h3 h4 h5 h6
            · have hbp : b = property := Option.some.inj (hb.symm.trans hprop)
              rw [hbp] at hqb
              subst hqb
              have hp'own : p'.owner = some pid := by
                rw [h1]
                exact hown
              have hp'col : p'.tile.color = some c := by
                rw [h3]
                exact hc
              have hp'grp : p' ∈ gs.properties.filter
                  (fun p => p.tile.color == some c && p.owner == some pid) :=
                List.mem_filter.mpr ⟨hpo, by simp [hp'own, hp'col]⟩
              have hple : p'.houses ≤ m := hmub p' hp'grp
              show p'.houses ≤ property.houses - 1 + 1
              omega
          · have hap : a = property := Option.some.inj (ha.symm.trans hprop)
            rw [hap] at hpa
            subst hpa
            rcases mem_updateFirst hq' with hqo | ⟨b, hb, hqb⟩
            · have hle : property.houses ≤ q'.houses + 1 :=
                h property hpmem q' hqo h1 h2 h3 h4 h5 h6
              show property.houses - 1 ≤ q'.houses + 1
              omega
            · have hbp : b = property := Option.some.inj (hb.symm.trans hprop)
              rw [hbp] at hqb
              subst hqb
              show property.houses - 1 ≤ property.houses - 1 + 1
              omega

/-- C2 (corrected): restricted to hotel-free properties, the even-building law
— any two properties of the same color group held by the same owner have
house counts differing by at most 1 — is an invariant preserved by the
house-level building operations build_house and sell_house.  (The hotel
operations are exempt: build_hotel zeroes a property's house count next to
group mates holding 4 houses, and sell_hotel restores 4 houses regardless of
neighbours.) -/
theorem even_building_law_hotelfree_preserved (gs : GameState) (pid : String)
    (loc : Nat) (h : evenLawHF gs) :
    evenLawHF (handleBuildHouse gs pid loc).2 ∧
    evenLawHF (handleSellHouse gs pid loc).2 :=
  ⟨evenHF_buildHouse gs pid loc h, evenHF_sellHouse gs pid loc h⟩

/-- Witness for C2 (amended): the law holds on the concrete two-property
brown monopoly and is preserved through the building handlers. -/
theorem even_building_law_hotelfree_preserved_witness :
    evenLawHF (handleBuildHouse gsC2 "p1" 1).2 ∧
    evenLawHF (handleSellHouse gsC2 "p1" 1).2 :=
  even_building_law_hotelfree_preserved gsC2 "p1" 1 (by decide)

/-- Counterexample for C2 as stated: the two brown properties stand at 4
houses each, satisfying the claimed law; build_hotel on the first succeeds
and leaves house counts 0 and 4 on two same-color properties of the same
owner, so the unrestricted law is not preserved by build_hotel. -/
theorem buildHotel_breaks_even_claim :
    evenLawLiteral gsC2 ∧
    (handleBuildHotel gsC2 "p1" 1).1.success = true ∧
    ¬ evenLawLiteral (handleBuildHotel gsC2 "p1" 1).2 := by
  decide
